import Mathlib

/-!
Verification of the VMT transition-system core of smt2utils: structural
extraction (`checked_from`), the time-step renaming rewriter (`BMCBuilder`),
the bounded-model-checking unroller (`unroll`), the SMT problem accumulator
(`SMTProblem`), and the array-theory abstraction rewriter (`ArrayAbstractor`).

The syntax tree (`Term`, `Command`, sorts, identifiers) and the generic
rewrite traversal are the external collaborator capabilities of the core;
they are modelled here as plain inductive types and structural recursion.
All integer state that is `u8` in the source (`step`, `length`) is embedded
as `Nat` with explicit `% 256` at each point where the source performs
8-bit arithmetic.  A source `panic!`/`assert!` failure is embedded as
`Option.none`.
-/

namespace Vmt

/-- Modelled from the spec: a symbol of the external syntax tree
(§2 "Syntax Tree & Rewrite Capability"), carried as raw text.
In the source this is `concrete::Symbol(String)`. -/
structure Symbol where
  name : String
deriving DecidableEq, Repr

/-- Modelled from the spec: an attribute keyword; the raw text excludes the
leading colon, which is added by its textual rendering. -/
structure Keyword where
  name : String
deriving DecidableEq, Repr

/-- Textual rendering of a keyword (`Display` prepends the colon). -/
def Keyword.toStr (k : Keyword) : String := ":" ++ k.name

/-- Modelled from the spec: an identifier of the syntax tree, either a plain
symbol or an indexed identifier `(_ sym i ...)`. -/
inductive Identifier where
  | simple (sym : Symbol)
  | indexed (sym : Symbol) (indices : List String)
deriving DecidableEq, Repr

/-- Textual rendering of an identifier. -/
def Identifier.toStr : Identifier → String
  | .simple sym => sym.name
  | .indexed sym indices =>
      "(_ " ++ sym.name ++ " " ++ String.intercalate " " indices ++ ")"

mutual
/-- Modelled from the spec: a sort of the syntax tree, simple or
parameterized (e.g. `(Array Int Int)`). -/
inductive SmtSort where
  | simple (id : Identifier)
  | parameterized (id : Identifier) (params : SortList)
deriving Repr
/-- A list of sorts (spelled out so that all recursion stays structural). -/
inductive SortList where
  | nil
  | cons (s : SmtSort) (rest : SortList)
deriving Repr
end

mutual
/-- Textual rendering of a sort. -/
def SmtSort.toStr : SmtSort → String
  | .simple id => id.toStr
  | .parameterized id params =>
      "(" ++ id.toStr ++ " " ++ SortList.toStr params ++ ")"
/-- Textual rendering of a sort list, space separated. -/
def SortList.toStr : SortList → String
  | .nil => ""
  | .cons s .nil => s.toStr
  | .cons s rest => s.toStr ++ " " ++ SortList.toStr rest
end

/-- Modelled from the spec: a qualified identifier, plain or sort-ascribed
(`(as const (Array Int Int))`). -/
inductive QualIdentifier where
  | simple (id : Identifier)
  | sorted (id : Identifier) (sort : SmtSort)
deriving Repr

/-- Textual rendering of a qualified identifier. -/
def QualIdentifier.toStr : QualIdentifier → String
  | .simple id => id.toStr
  | .sorted id sort => "(as " ++ id.toStr ++ " " ++ sort.toStr ++ ")"

mutual
/-- Modelled from the spec: a term of the syntax tree.  Attribute values are
carried as raw text, which is all the core ever inspects of them. -/
inductive Term where
  | constant (text : String)
  | qualId (qid : QualIdentifier)
  | application (qid : QualIdentifier) (args : TermList)
  | letT (bindings : BindingList) (body : Term)
  | forallT (binders : List (Symbol × SmtSort)) (body : Term)
  | existsT (binders : List (Symbol × SmtSort)) (body : Term)
  | attributes (t : Term) (attrs : List (Keyword × String))
deriving Repr
/-- A list of argument terms. -/
inductive TermList where
  | nil
  | cons (t : Term) (rest : TermList)
deriving Repr
/-- A list of let bindings. -/
inductive BindingList where
  | nil
  | cons (x : Symbol) (value : Term) (rest : BindingList)
deriving Repr
end

/-- Textual rendering of quantifier binders `(x S) (y T) ...`. -/
def bindersToStr (binders : List (Symbol × SmtSort)) : String :=
  String.intercalate " "
    (binders.map (fun p => "(" ++ p.1.name ++ " " ++ p.2.toStr ++ ")"))

/-- Textual rendering of a term attribute `:kw value`. -/
def attrToStr (a : Keyword × String) : String :=
  a.1.toStr ++ (if a.2 = "" then "" else " " ++ a.2)

mutual
/-- Textual rendering of a term (the external concrete-syntax printer). -/
def Term.toStr : Term → String
  | .constant text => text
  | .qualId qid => qid.toStr
  | .application qid args =>
      "(" ++ qid.toStr ++ " " ++ TermList.toStr args ++ ")"
  | .letT bindings body =>
      "(let (" ++ BindingList.toStr bindings ++ ") " ++ Term.toStr body ++ ")"
  | .forallT binders body =>
      "(forall (" ++ bindersToStr binders ++ ") " ++ Term.toStr body ++ ")"
  | .existsT binders body =>
      "(exists (" ++ bindersToStr binders ++ ") " ++ Term.toStr body ++ ")"
  | .attributes t attrs =>
      "(! " ++ Term.toStr t ++ " " ++
        String.intercalate " " (attrs.map attrToStr) ++ ")"
/-- Textual rendering of an argument list, space separated. -/
def TermList.toStr : TermList → String
  | .nil => ""
  | .cons t .nil => Term.toStr t
  | .cons t rest => Term.toStr t ++ " " ++ TermList.toStr rest
/-- Textual rendering of let bindings `(x v) (y w) ...`. -/
def BindingList.toStr : BindingList → String
  | .nil => ""
  | .cons x v .nil => "(" ++ x.name ++ " " ++ Term.toStr v ++ ")"
  | .cons x v rest =>
      "(" ++ x.name ++ " " ++ Term.toStr v ++ ") " ++ BindingList.toStr rest
end

/-- Modelled from the spec: the top-level command kinds the Structural
Extractor distinguishes (`declare-fun`, `define-fun`, `declare-sort`);
`other` stands for every remaining command kind, which the extractor
rejects. The `define-fun` signature is a name, typed parameters and a
result sort. -/
structure FunctionDec where
  name : Symbol
  parameters : List (Symbol × SmtSort)
  result : SmtSort
deriving Repr

inductive Command where
  | declareFun (symbol : Symbol) (parameters : List SmtSort) (sort : SmtSort)
  | defineFun (sig : FunctionDec) (term : Term)
  | declareSort (symbol : Symbol) (arity : Nat)
  | other
deriving Repr

/-- Textual rendering of a command. -/
def Command.toStr : Command → String
  | .declareFun symbol parameters sort =>
      "(declare-fun " ++ symbol.name ++ " (" ++
        String.intercalate " " (parameters.map SmtSort.toStr) ++ ") " ++
        sort.toStr ++ ")"
  | .defineFun sig term =>
      "(define-fun " ++ sig.name.name ++ " (" ++ bindersToStr sig.parameters
        ++ ") " ++ sig.result.toStr ++ " " ++ term.toStr ++ ")"
  | .declareSort symbol arity =>
      "(declare-sort " ++ symbol.name ++ " " ++ toString arity ++ ")"
  | .other => "(other)"

/-- Whether a command is a zero-or-more-parameter `declare-fun`. -/
def Command.isDeclareFun : Command → Bool
  | .declareFun _ _ _ => true
  | _ => false

/-- Whether a command is a `declare-sort`. -/
def Command.isDeclareSort : Command → Bool
  | .declareSort _ _ => true
  | _ => false

/-- A state variable: the pair of `declare-fun` commands for its current-
and next-frame names (`vmt/variable.rs`, recovered from the identical
snapshot `Variable` in `vmt.rs`). -/
structure Variable where
  current : Command
  next : Command
deriving Repr

/-- The current-frame name of a state variable; the source panics when the
command is not a `declare-fun`, embedded as `none`. -/
def Variable.get_current_variable_name (v : Variable) : Option String :=
  match v.current with
  | .declareFun symbol _ _ => some symbol.name
  | _ => none

/-- The next-frame name of a state variable; panic embedded as `none`. -/
def Variable.get_next_variable_name (v : Variable) : Option String :=
  match v.next with
  | .declareFun symbol _ _ => some symbol.name
  | _ => none

/-- An action: a single `declare-fun` command (`vmt/action.rs`). -/
structure Action where
  action_command : Command
deriving Repr

/-- The name of an action; the source panics when the command is not a
`declare-fun`, embedded as `none`. -/
def Action.get_current_action_name (a : Action) : Option String :=
  match a.action_command with
  | .declareFun symbol _ _ => some symbol.name
  | _ => none

/-- The transition-system model extracted from a VMT script
(`VMTModel` in `vmt/mod.rs`). -/
structure VMTModel where
  sorts : List Command
  state_variables : List Variable
  actions : List Action
  initial_condition : Term
  transition_condition : Term
  property_condition : Term
deriving Repr

/-- `PROPERTY_ATTRIBUTE` in `vmt/mod.rs`. -/
def PROPERTY_ATTRIBUTE : String := "invar-property"
/-- `TRANSITION_ATTRIBUTE` in `vmt/mod.rs`. -/
def TRANSITION_ATTRIBUTE : String := "trans"
/-- `INITIAL_ATTRIBUTE` in `vmt/mod.rs`. -/
def INITIAL_ATTRIBUTE : String := "init"

/-- `scrub_variable_name` in `vmt.rs`: strips one layer of SMT-LIB quoting
bars from a name (phrased over the character list so that it evaluates by
kernel reduction; `starts_with "|"`/`ends_with "|"` become head/last
checks, dropping the first and last character matches the source's
`chars.next(); chars.next_back()`). -/
def scrub_variable_name (variable_name : String) : String :=
  let cs := variable_name.data
  if cs.head? = some '|' ∧ cs.getLast? = some '|' then
    String.mk ((cs.drop 1).dropLast)
  else
    variable_name

/-- `command_has_attribute_string` in `vmt.rs`: whether the command is a
`define-fun` whose body is an attribute wrapper with the given keyword.
The source asserts the wrapper carries exactly one attribute; an attribute
list of another length is a panic, embedded as `none`. -/
def command_has_attribute_string (command : Command) (attrName : String) :
    Option Bool :=
  match command with
  | .defineFun _ (.attributes _ attrs) =>
      match attrs with
      | [(keyword, _)] => some (keyword.name == attrName)
      | _ => none
  | _ => some false

/-- `get_transition_system_component` in `vmt.rs`: unwraps the attributed
term of one of the three trailing declarations, checking the expected
keyword; any mismatch is a panic, embedded as `none`. -/
def get_transition_system_component (command : Command) (attrName : String) :
    Option Term :=
  match command_has_attribute_string command attrName with
  | none => none
  | some false => none
  | some true =>
      match command with
      | .defineFun _ (.attributes t _) => some t
      | _ => none

/-- `get_variable_command` in `vmt.rs`: looks a scrubbed name up among the
declared variables; the source panics when the name is unknown
("First term in define-fun must be a variable name"), embedded as `none`. -/
def get_variable_command (variable_name : String)
    (variable_commands : List (String × Command)) : Option Command :=
  variable_commands.lookup variable_name

/-- `get_variables_and_actions` in `vmt.rs`: walks the queued relationship
declarations; a `:next` attribute pairs a current and a next variable, an
`:action` attribute selects an action, anything else panics (`none`). -/
def get_variables_and_actions :
    List Command → List (String × Command) →
      Option (List Variable × List Action)
  | [], _ => some ([], [])
  | rel :: rest, variable_commands =>
      match rel with
      | .defineFun _ (.attributes t attrs) =>
          match attrs with
          | [(keyword, value)] =>
              if keyword.toStr == ":next" then
                match
                  get_variable_command (scrub_variable_name t.toStr)
                    variable_commands,
                  get_variable_command (scrub_variable_name value)
                    variable_commands with
                | some variable_command, some new_variable_command =>
                    match get_variables_and_actions rest variable_commands with
                    | some (vars, acts) =>
                        some (⟨variable_command, new_variable_command⟩ :: vars,
                          acts)
                    | none => none
                | _, _ => none
              else if keyword.toStr == ":action" then
                match
                  get_variable_command (scrub_variable_name t.toStr)
                    variable_commands with
                | some action_command =>
                    match get_variables_and_actions rest variable_commands with
                    | some (vars, acts) => some (vars, ⟨action_command⟩ :: acts)
                    | none => none
                | none => none
              else none
          | _ => none
      | _ => none

/-- The partition loop of `VMTModel::checked_from`: files every command
before the trailing three by kind (declared variable, relationship, sort);
any other command kind is a panic ("Unknown VMT command"), embedded as
`none`.  Declared variables are accumulated newest first, matching the
overwrite semantics of the source's `HashMap::insert` under lookup. -/
def partitionCommands :
    List Command →
      (List (String × Command) × List Command × List Command) →
      Option (List (String × Command) × List Command × List Command)
  | [], acc => some acc
  | c :: rest, (variable_commands, sorts, variable_relationships) =>
      match c with
      | .declareFun symbol _ _ =>
          partitionCommands rest
            ((symbol.name, c) :: variable_commands, sorts,
              variable_relationships)
      | .defineFun _ _ =>
          partitionCommands rest
            (variable_commands, sorts, variable_relationships ++ [c])
      | .declareSort _ _ =>
          partitionCommands rest
            (variable_commands, sorts ++ [c], variable_relationships)
      | .other => none

/-- `VMTModel::checked_from` in `vmt/mod.rs`: validates a declaration
sequence and builds the transition-system model.  Every source `assert!`
or `panic!` on the way is embedded as `none`. -/
def checked_from (commands : List Command) : Option VMTModel :=
  let number_of_commands := commands.length
  if number_of_commands ≤ 3 then none
  else
    match
      get_transition_system_component
        (commands.getD (number_of_commands - 1) .other) PROPERTY_ATTRIBUTE with
    | none => none
    | some property_condition =>
    match
      get_transition_system_component
        (commands.getD (number_of_commands - 2) .other)
        TRANSITION_ATTRIBUTE with
    | none => none
    | some transition_condition =>
    match
      get_transition_system_component
        (commands.getD (number_of_commands - 3) .other) INITIAL_ATTRIBUTE with
    | none => none
    | some initial_condition =>
    match partitionCommands (commands.take (number_of_commands - 3))
        ([], [], []) with
    | none => none
    | some (variable_commands, sorts, variable_relationships) =>
    match get_variables_and_actions variable_relationships variable_commands
      with
    | none => none
    | some (state_variables, actions) =>
        some ⟨sorts, state_variables, actions, initial_condition,
          transition_condition, property_condition⟩

/-- The Time-Step Renamer state (`BMCBuilder` in `vmt/bmc.rs`, recovered
from the identical snapshot `VMTBuilder` in `vmt.rs`): the current-frame
names, the next-frame-to-current-frame map (`HashMap`, embedded as an
association list whose head is the latest insertion), and the `u8` step
counter, embedded as a `Nat` kept below 256 by `% 256`. -/
structure BMCBuilder where
  current_variables : List String
  next_variables : List (String × String)
  step : Nat
deriving Repr

/-- `BMCBuilder::add_step`: `self.step += 1` on a `u8`. -/
def BMCBuilder.add_step (b : BMCBuilder) : BMCBuilder :=
  { b with step := (b.step + 1) % 256 }

/-- `BMCBuilder::process_symbol` (`process_symbol` in `vmt.rs`): the
symbol-rewrite rule of the Time-Step Renamer.  `self.step + 1` is `u8`
addition, hence the `% 256`. -/
def process_symbol (b : BMCBuilder) (s : Symbol) : Symbol :=
  if b.current_variables.contains s.name then
    ⟨s.name ++ "@" ++ toString b.step⟩
  else
    match b.next_variables.lookup s.name with
    | some current_variable_name =>
        ⟨current_variable_name ++ "@" ++ toString ((b.step + 1) % 256)⟩
    | none => s

/-- Modelled from the spec: the generic rewrite capability of the external
syntax library applied to identifiers with the Time-Step Renamer's
`process_symbol` override; every symbol of the tree passes through the
override, identity elsewhere (§6, §9). -/
def bmcIdentifier (b : BMCBuilder) : Identifier → Identifier
  | .simple sym => .simple (process_symbol b sym)
  | .indexed sym indices => .indexed (process_symbol b sym) indices

mutual
/-- Modelled from the spec: the generic rewrite of a sort under the
Time-Step Renamer (sort names pass through `process_symbol`). -/
def bmcSort (b : BMCBuilder) : SmtSort → SmtSort
  | .simple id => .simple (bmcIdentifier b id)
  | .parameterized id params =>
      .parameterized (bmcIdentifier b id) (bmcSortList b params)
/-- The generic rewrite of a sort list under the Time-Step Renamer. -/
def bmcSortList (b : BMCBuilder) : SortList → SortList
  | .nil => .nil
  | .cons s rest => .cons (bmcSort b s) (bmcSortList b rest)
end

/-- The generic rewrite of a qualified identifier under the Time-Step
Renamer. -/
def bmcQualIdentifier (b : BMCBuilder) : QualIdentifier → QualIdentifier
  | .simple id => .simple (bmcIdentifier b id)
  | .sorted id sort => .sorted (bmcIdentifier b id) (bmcSort b sort)

mutual
/-- Modelled from the spec: the generic structure-preserving rewrite of a
term with the Time-Step Renamer's `process_symbol` override applied at
every symbol. -/
def bmcTerm (b : BMCBuilder) : Term → Term
  | .constant text => .constant text
  | .qualId qid => .qualId (bmcQualIdentifier b qid)
  | .application qid args =>
      .application (bmcQualIdentifier b qid) (bmcTermList b args)
  | .letT bindings body => .letT (bmcBindingList b bindings) (bmcTerm b body)
  | .forallT binders body =>
      .forallT
        (binders.map (fun p => (process_symbol b p.1, bmcSort b p.2)))
        (bmcTerm b body)
  | .existsT binders body =>
      .existsT
        (binders.map (fun p => (process_symbol b p.1, bmcSort b p.2)))
        (bmcTerm b body)
  | .attributes t attrs => .attributes (bmcTerm b t) attrs
/-- The generic rewrite of an argument list under the Time-Step Renamer. -/
def bmcTermList (b : BMCBuilder) : TermList → TermList
  | .nil => .nil
  | .cons t rest => .cons (bmcTerm b t) (bmcTermList b rest)
/-- The generic rewrite of let bindings under the Time-Step Renamer. -/
def bmcBindingList (b : BMCBuilder) : BindingList → BindingList
  | .nil => .nil
  | .cons x v rest =>
      .cons (process_symbol b x) (bmcTerm b v) (bmcBindingList b rest)
end

/-- The generic rewrite of a command under the Time-Step Renamer; this is
what turns `(declare-fun x () Bool)` into `(declare-fun x@3 () Bool)`. -/
def bmcCommand (b : BMCBuilder) : Command → Command
  | .declareFun symbol parameters sort =>
      .declareFun (process_symbol b symbol) (parameters.map (bmcSort b))
        (bmcSort b sort)
  | .defineFun sig term =>
      .defineFun
        ⟨process_symbol b sig.name,
          sig.parameters.map (fun p => (process_symbol b p.1, bmcSort b p.2)),
          bmcSort b sig.result⟩
        (bmcTerm b term)
  | .declareSort symbol arity => .declareSort (process_symbol b symbol) arity
  | .other => .other

/-- `assert_term` in `vmt/utils.rs` (recovered from the identical snapshot
`assert` in `vmt.rs`). -/
def assert_term (term : Term) : String := "(assert " ++ term.toStr ++ ")"

/-- `assert_negation` in `vmt/utils.rs` (recovered from the identical
snapshot in `vmt.rs`). -/
def assert_negation (term : Term) : String :=
  "(assert (not " ++ term.toStr ++ "))"

/-- `SMTProblem` in `vmt/smt.rs`: the unrolled-query accumulator. -/
structure SMTProblem where
  sorts : List Command
  definitions : List Command
  init_and_trans_assertions : List Term
  property_assertion : Option Term
deriving Repr

/-- `SMTProblem::new`. -/
def SMTProblem.new (sorts : List Command) : SMTProblem :=
  ⟨sorts, [], [], none⟩

/-- `SMTProblem::init_and_trans_length`. -/
def SMTProblem.init_and_trans_length (p : SMTProblem) : Nat :=
  p.init_and_trans_assertions.length

/-- `SMTProblem::add_assertion`: pushes the condition rewritten by the
builder onto the initial/transition assertion list. -/
def SMTProblem.add_assertion (p : SMTProblem) (condition : Term)
    (builder : BMCBuilder) : SMTProblem :=
  { p with init_and_trans_assertions :=
      p.init_and_trans_assertions ++ [bmcTerm builder condition] }

/-- `SMTProblem::add_property_assertion`: stores the rewritten property. -/
def SMTProblem.add_property_assertion (p : SMTProblem) (condition : Term)
    (builder : BMCBuilder) : SMTProblem :=
  { p with property_assertion := some (bmcTerm builder condition) }

/-- `SMTProblem::add_definitions`: pushes the time-indexed declaration of
every state variable, then of every action. -/
def SMTProblem.add_definitions (p : SMTProblem)
    (state_variables : List Variable) (actions : List Action)
    (builder : BMCBuilder) : SMTProblem :=
  { p with definitions :=
      p.definitions ++
        state_variables.map (fun v => bmcCommand builder v.current) ++
        actions.map (fun a => bmcCommand builder a.action_command) }

/-- `SMTProblem::to_smtlib2`: the textual query.  The source asserts that a
property assertion is present; its absence is embedded as `none`. -/
def SMTProblem.to_smtlib2 (p : SMTProblem) : Option String :=
  match p.property_assertion with
  | none => none
  | some prop =>
      let sort_names := String.intercalate "\n" (p.sorts.map Command.toStr)
      let defs := String.intercalate "\n" (p.definitions.map Command.toStr)
      let init_and_trans_asserts :=
        String.intercalate "\n" (p.init_and_trans_assertions.map assert_term)
      some (sort_names ++ "\n" ++ defs ++ "\n" ++ init_and_trans_asserts ++
        "\n" ++ assert_negation prop)

/-- `VMTModel::get_all_current_variable_names`: state-variable current
names followed by action names; a malformed member is a panic (`none`). -/
def get_all_current_variable_names (m : VMTModel) : Option (List String) :=
  match m.state_variables.mapM Variable.get_current_variable_name,
      m.actions.mapM Action.get_current_action_name with
  | some state_variable_names, some action_names =>
      some (state_variable_names ++ action_names)
  | _, _ => none

/-- `VMTModel::get_all_next_variable_names`: the next-name → current-name
map, collected into a `HashMap` (embedded latest-insertion-first so that
lookup agrees with the source's overwrite semantics). -/
def get_all_next_variable_names (m : VMTModel) :
    Option (List (String × String)) :=
  match
    m.state_variables.mapM (fun v =>
      match v.get_next_variable_name, v.get_current_variable_name with
      | some nxt, some cur => some (nxt, cur)
      | _, _ => none) with
  | some pairs => some pairs.reverse
  | none => none

/-- The `for _ in 0..length` loop of `VMTModel::unroll`: at each step, add
the time-indexed definitions, assert the rewritten transition condition,
and advance the builder. -/
def unrollLoop (m : VMTModel) :
    Nat → SMTProblem → BMCBuilder → SMTProblem × BMCBuilder
  | 0, p, b => (p, b)
  | n + 1, p, b =>
      let p := p.add_definitions m.state_variables m.actions b
      let p := p.add_assertion m.transition_condition b
      unrollLoop m n p b.add_step

/-- `VMTModel::unroll` in `vmt/mod.rs`: builds the unrolled SMT problem for
a depth.  `length` is `u8` in the source; the trailing internal-consistency
`assert!` compares against `(length + 1)` computed in `u8`, hence the
`% 256`, and its failure (a panic) is embedded as `none`, as is a panic in
the variable-name collection. -/
def unroll (m : VMTModel) (length : Nat) : Option SMTProblem :=
  match get_all_current_variable_names m, get_all_next_variable_names m with
  | some current_variables, some next_variables =>
      let builder : BMCBuilder := ⟨current_variables, next_variables, 0⟩
      let smt_problem := SMTProblem.new m.sorts
      let smt_problem := smt_problem.add_assertion m.initial_condition builder
      let (smt_problem, builder) := unrollLoop m length smt_problem builder
      let smt_problem :=
        smt_problem.add_definitions m.state_variables m.actions builder
      let smt_problem :=
        smt_problem.add_property_assertion m.property_condition builder
      if smt_problem.init_and_trans_length = (length + 1) % 256 then
        some smt_problem
      else none
  | _, _ => none

/-- `VMTModel::abstract_array_theory` in `vmt/mod.rs`: the source body is
exactly `self.clone()`. -/
def abstract_array_theory (m : VMTModel) : VMTModel := m

/-- `ArrayAbstractor::visit_declare_fun` in `vmt/array_abstractor.rs`: a
declaration whose sort is a parameterized sort named `Array` is redeclared
at the fixed simple sort `Array-Int-Int`; all other sorts pass through. -/
def abstractDeclareFunSort (sort : SmtSort) : SmtSort :=
  match sort with
  | .simple _ => sort
  | .parameterized id _ =>
      if id.toStr == "Array" then
        .simple (.simple ⟨"Array-Int-Int"⟩)
      else sort

/-- `ArrayAbstractor::visit_application` in `vmt/array_abstractor.rs`: the
head-identifier substitution (`select` → `Read-Int-Int`, `store` →
`Write-Int-Int`, sorted `const` → `ConstArr-Int-Int`). -/
def abstractQualIdentifier (qual_identifier : QualIdentifier) :
    QualIdentifier :=
  match qual_identifier with
  | .simple id =>
      if id.toStr == "select" then .simple (.simple ⟨"Read-Int-Int"⟩)
      else if id.toStr == "store" then .simple (.simple ⟨"Write-Int-Int"⟩)
      else qual_identifier
  | .sorted id _ =>
      if id.toStr == "const" then .simple (.simple ⟨"ConstArr-Int-Int"⟩)
      else qual_identifier

mutual
/-- Modelled from the spec: the generic structure-preserving rewrite of a
term with the Array Theory Abstractor's `visit_application` override; all
other node kinds, including bare identifiers and sorts, pass through the
default identity traversal. -/
def abstractTerm : Term → Term
  | .constant text => .constant text
  | .qualId qid => .qualId qid
  | .application qid args =>
      .application (abstractQualIdentifier qid) (abstractTermList args)
  | .letT bindings body => .letT (abstractBindingList bindings)
      (abstractTerm body)
  | .forallT binders body => .forallT binders (abstractTerm body)
  | .existsT binders body => .existsT binders (abstractTerm body)
  | .attributes t attrs => .attributes (abstractTerm t) attrs
/-- The Array Theory Abstractor's rewrite of an argument list. -/
def abstractTermList : TermList → TermList
  | .nil => .nil
  | .cons t rest => .cons (abstractTerm t) (abstractTermList rest)
/-- The Array Theory Abstractor's rewrite of let bindings. -/
def abstractBindingList : BindingList → BindingList
  | .nil => .nil
  | .cons x v rest => .cons x (abstractTerm v) (abstractBindingList rest)
end

/-- The Array Theory Abstractor's rewrite of a command (`visit_declare_fun`
override on declarations, the term rewrite inside definitions). -/
def abstractCommand : Command → Command
  | .declareFun symbol parameters sort =>
      .declareFun symbol parameters (abstractDeclareFunSort sort)
  | .defineFun sig term => .defineFun sig (abstractTerm term)
  | .declareSort symbol arity => .declareSort symbol arity
  | .other => .other

/-! ### Predicates used to state the properties -/

/-- Whether a command is a `define-fun` wrapped by exactly one keyword
attribute with the given name (the VMT convention for the trailing three
declarations); equivalent to `command_has_attribute_string` returning
`some true`. -/
def hasSingleAttrWrapper (c : Command) (attrName : String) : Bool :=
  match c with
  | .defineFun _ (.attributes _ [(keyword, _)]) => keyword.name == attrName
  | _ => false

/-- The symbol names occurring in an identifier. -/
def symbolsOfIdentifier : Identifier → List String
  | .simple sym => [sym.name]
  | .indexed sym _ => [sym.name]

mutual
/-- The symbol names occurring in a sort. -/
def symbolsOfSort : SmtSort → List String
  | .simple id => symbolsOfIdentifier id
  | .parameterized id params =>
      symbolsOfIdentifier id ++ symbolsOfSortList params
/-- The symbol names occurring in a sort list. -/
def symbolsOfSortList : SortList → List String
  | .nil => []
  | .cons s rest => symbolsOfSort s ++ symbolsOfSortList rest
end

/-- The symbol names occurring in a qualified identifier. -/
def symbolsOfQualIdentifier : QualIdentifier → List String
  | .simple id => symbolsOfIdentifier id
  | .sorted id sort => symbolsOfIdentifier id ++ symbolsOfSort sort

mutual
/-- The symbol names occurring anywhere in a term. -/
def symbolsOfTerm : Term → List String
  | .constant _ => []
  | .qualId qid => symbolsOfQualIdentifier qid
  | .application qid args =>
      symbolsOfQualIdentifier qid ++ symbolsOfTermList args
  | .letT bindings body => symbolsOfBindingList bindings ++ symbolsOfTerm body
  | .forallT binders body =>
      binders.flatMap (fun p => p.1.name :: symbolsOfSort p.2) ++
        symbolsOfTerm body
  | .existsT binders body =>
      binders.flatMap (fun p => p.1.name :: symbolsOfSort p.2) ++
        symbolsOfTerm body
  | .attributes t _ => symbolsOfTerm t
/-- The symbol names occurring in an argument list. -/
def symbolsOfTermList : TermList → List String
  | .nil => []
  | .cons t rest => symbolsOfTerm t ++ symbolsOfTermList rest
/-- The symbol names occurring in let bindings. -/
def symbolsOfBindingList : BindingList → List String
  | .nil => []
  | .cons x v rest =>
      x.name :: (symbolsOfTerm v ++ symbolsOfBindingList rest)
end

/-- A symbol name the Time-Step Renamer leaves alone: neither a
current-frame name nor a next-frame name of the builder. -/
def frameFreeName (b : BMCBuilder) (s : String) : Bool :=
  !(b.current_variables.contains s) && (b.next_variables.lookup s).isNone

mutual
/-- No parameterized sort named `Array` occurs in the sort. -/
def sortArrayFree : SmtSort → Bool
  | .simple _ => true
  | .parameterized id params =>
      !(id.toStr == "Array") && sortListArrayFree params
/-- No parameterized sort named `Array` occurs in the sort list. -/
def sortListArrayFree : SortList → Bool
  | .nil => true
  | .cons s rest => sortArrayFree s && sortListArrayFree rest
end

/-- A qualified identifier free of array constructs at a non-head
position: not a sorted `const` ascription, with an array-free sort. -/
def qualIdArrayFree : QualIdentifier → Bool
  | .simple _ => true
  | .sorted id sort => !(id.toStr == "const") && sortArrayFree sort

/-- A qualified identifier free of array constructs at the head of an
application: additionally not `select` or `store`. -/
def qualIdHeadArrayFree : QualIdentifier → Bool
  | .simple id => !(id.toStr == "select") && !(id.toStr == "store")
  | .sorted id sort => !(id.toStr == "const") && sortArrayFree sort

mutual
/-- The term contains no array constructs: no `select`/`store`
application, no sorted `const` identifier, no parameterized `Array`
sort. -/
def termArrayFree : Term → Bool
  | .constant _ => true
  | .qualId qid => qualIdArrayFree qid
  | .application qid args => qualIdHeadArrayFree qid && termListArrayFree args
  | .letT bindings body => bindingsArrayFree bindings && termArrayFree body
  | .forallT binders body =>
      binders.all (fun p => sortArrayFree p.2) && termArrayFree body
  | .existsT binders body =>
      binders.all (fun p => sortArrayFree p.2) && termArrayFree body
  | .attributes t _ => termArrayFree t
/-- The argument list contains no array constructs. -/
def termListArrayFree : TermList → Bool
  | .nil => true
  | .cons t rest => termArrayFree t && termListArrayFree rest
/-- The let bindings contain no array constructs. -/
def bindingsArrayFree : BindingList → Bool
  | .nil => true
  | .cons _ v rest => termArrayFree v && bindingsArrayFree rest
end

/-- The per-step block of time-indexed declarations `add_definitions`
appends: all state-variable current declarations, then all action
declarations, each rewritten by the builder. -/
def stepDefs (m : VMTModel) (b : BMCBuilder) : List Command :=
  m.state_variables.map (fun v => bmcCommand b v.current) ++
    m.actions.map (fun a => bmcCommand b a.action_command)

/-! ### Concrete inputs used for witnesses and counterexamples -/

/-- The `Bool` sort. -/
def boolSort : SmtSort := .simple (.simple ⟨"Bool"⟩)

/-- A bare symbol term. -/
def symTerm (s : String) : Term := .qualId (.simple (.simple ⟨s⟩))

/-- A trivial `define-fun` signature (the extractor never inspects it). -/
def trivSig (s : String) : FunctionDec := ⟨⟨s⟩, [], boolSort⟩

/-- `(= x true)`. -/
def exInitTerm : Term :=
  .application (.simple (.simple ⟨"="⟩))
    (.cons (symTerm "x") (.cons (.constant "true") .nil))

/-- `(= x_next (not x))`. -/
def exTransTerm : Term :=
  .application (.simple (.simple ⟨"="⟩))
    (.cons (symTerm "x_next")
      (.cons (.application (.simple (.simple ⟨"not"⟩))
        (.cons (symTerm "x") .nil)) .nil))

/-- `(= x true)` as the property. -/
def exPropTerm : Term := exInitTerm

/-- `(declare-fun x () Bool)`. -/
def exXDecl : Command := .declareFun ⟨"x"⟩ [] boolSort

/-- `(declare-fun x_next () Bool)`. -/
def exXNextDecl : Command := .declareFun ⟨"x_next"⟩ [] boolSort

/-- The `:next` relationship pairing `x` with `x_next`. -/
def exNextRel : Command :=
  .defineFun (trivSig ".rel") (.attributes (symTerm "x") [(⟨"next"⟩, "x_next")])

/-- The wrapped initial condition. -/
def exInitCmd : Command :=
  .defineFun (trivSig ".init") (.attributes exInitTerm [(⟨"init"⟩, "true")])

/-- The wrapped transition condition. -/
def exTransCmd : Command :=
  .defineFun (trivSig ".trans") (.attributes exTransTerm [(⟨"trans"⟩, "true")])

/-- The wrapped property condition. -/
def exPropCmd : Command :=
  .defineFun (trivSig ".prop")
    (.attributes exPropTerm [(⟨"invar-property"⟩, "0")])

/-- The declaration sequence of the one-variable toggle system. -/
def exCmds : List Command :=
  [exXDecl, exXNextDecl, exNextRel, exInitCmd, exTransCmd, exPropCmd]

/-- The transition-system model of the one-variable toggle system. -/
def exModel : VMTModel :=
  ⟨[], [⟨exXDecl, exXNextDecl⟩], [], exInitTerm, exTransTerm, exPropTerm⟩

/-- A declaration sequence that declares the variable `x` but contains no
`:next`/`:action` relationship naming it. -/
def ex8Cmds : List Command := [exXDecl, exInitCmd, exTransCmd, exPropCmd]

/-- The model `checked_from` extracts from `ex8Cmds`: the declared
variable `x` appears in neither the state variables nor the actions. -/
def ex8Model : VMTModel :=
  ⟨[], [], [], exInitTerm, exTransTerm, exPropTerm⟩

/-- A Time-Step Renamer whose `u8` step counter has reached 255, with one
next-frame name `b` mapped to the current-frame name `a`. -/
def cb255 : BMCBuilder := ⟨[], [("b", "a")], 255⟩

/-- The `Int` sort. -/
def intSort : SmtSort := .simple (.simple ⟨"Int"⟩)

/-- The parameterized sort `(Array Int Int)`. -/
def arrIntIntSort : SmtSort :=
  .parameterized (.simple ⟨"Array"⟩) (.cons intSort (.cons intSort .nil))

/-- `(declare-fun arr () (Array Int Int))`. -/
def exArrDecl : Command := .declareFun ⟨"arr"⟩ [] arrIntIntSort

/-- `(declare-fun arr_next () (Array Int Int))`. -/
def exArrNextDecl : Command := .declareFun ⟨"arr_next"⟩ [] arrIntIntSort

/-- `(= (select arr 0) 0)`. -/
def exArrInitTerm : Term :=
  .application (.simple (.simple ⟨"="⟩))
    (.cons (.application (.simple (.simple ⟨"select"⟩))
        (.cons (symTerm "arr") (.cons (.constant "0") .nil)))
      (.cons (.constant "0") .nil))

/-- `(= arr_next (store arr 0 5))`. -/
def exArrTransTerm : Term :=
  .application (.simple (.simple ⟨"="⟩))
    (.cons (symTerm "arr_next")
      (.cons (.application (.simple (.simple ⟨"store"⟩))
          (.cons (symTerm "arr")
            (.cons (.constant "0") (.cons (.constant "5") .nil)))) .nil))

/-- A transition-system model that uses the parameterized `(Array Int
Int)` sort and `select`/`store` applications. -/
def exArrModel : VMTModel :=
  ⟨[], [⟨exArrDecl, exArrNextDecl⟩], [], exArrInitTerm, exArrTransTerm,
    exArrInitTerm⟩

/-- A term over symbols the toggle model's renamer does not know:
`(+ i 1)`. -/
def exUntouchedTerm : Term :=
  .application (.simple (.simple ⟨"+"⟩))
    (.cons (symTerm "i") (.cons (.constant "1") .nil))

/-! ### Helper lemmas -/

/-- `String.append` is right-cancellative. -/
theorem string_append_cancel_right {a b c : String} (h : a ++ c = b ++ c) :
    a = b := by
  have hd : a.data ++ c.data = b.data ++ c.data := by
    have := congrArg String.data h
    simpa using this
  exact String.ext (List.append_cancel_right hd)

/-- A symbol that is neither a current- nor a next-frame name passes
through `process_symbol` unchanged. -/
theorem process_symbol_id (b : BMCBuilder) (s : Symbol)
    (h : frameFreeName b s.name = true) : process_symbol b s = s := by
  simp only [frameFreeName, Bool.and_eq_true, Bool.not_eq_true',
    Option.isNone_iff_eq_none] at h
  have h1 : s.name ∉ b.current_variables := by
    simpa using h.1
  simp [process_symbol, h1, h.2]

/-- An identifier whose symbol the renamer does not know is unchanged. -/
theorem bmcIdentifier_id (b : BMCBuilder) (id : Identifier)
    (h : (symbolsOfIdentifier id).all (frameFreeName b) = true) :
    bmcIdentifier b id = id := by
  cases id with
  | simple sym =>
      simp only [symbolsOfIdentifier, List.all_cons, List.all_nil,
        Bool.and_true] at h
      simp [bmcIdentifier, process_symbol_id b sym h]
  | indexed sym indices =>
      simp only [symbolsOfIdentifier, List.all_cons, List.all_nil,
        Bool.and_true] at h
      simp [bmcIdentifier, process_symbol_id b sym h]

mutual
/-- A sort free of renamer-known symbols is unchanged. -/
theorem bmcSort_id (b : BMCBuilder) :
    ∀ s : SmtSort, (symbolsOfSort s).all (frameFreeName b) = true →
      bmcSort b s = s
  | .simple id, h => by
      simp only [symbolsOfSort] at h
      simp [bmcSort, bmcIdentifier_id b id h]
  | .parameterized id params, h => by
      simp only [symbolsOfSort, List.all_append, Bool.and_eq_true] at h
      simp [bmcSort, bmcIdentifier_id b id h.1, bmcSortList_id b params h.2]
/-- A sort list free of renamer-known symbols is unchanged. -/
theorem bmcSortList_id (b : BMCBuilder) :
    ∀ ss : SortList, (symbolsOfSortList ss).all (frameFreeName b) = true →
      bmcSortList b ss = ss
  | .nil, _ => rfl
  | .cons s rest, h => by
      simp only [symbolsOfSortList, List.all_append, Bool.and_eq_true] at h
      simp [bmcSortList, bmcSort_id b s h.1, bmcSortList_id b rest h.2]
end

/-- A qualified identifier free of renamer-known symbols is unchanged. -/
theorem bmcQualIdentifier_id (b : BMCBuilder) (qid : QualIdentifier)
    (h : (symbolsOfQualIdentifier qid).all (frameFreeName b) = true) :
    bmcQualIdentifier b qid = qid := by
  cases qid with
  | simple id =>
      simp only [symbolsOfQualIdentifier] at h
      simp [bmcQualIdentifier, bmcIdentifier_id b id h]
  | sorted id sort =>
      simp only [symbolsOfQualIdentifier, List.all_append,
        Bool.and_eq_true] at h
      simp [bmcQualIdentifier, bmcIdentifier_id b id h.1,
        bmcSort_id b sort h.2]

/-- Quantifier binders free of renamer-known symbols are unchanged. -/
theorem bmcBinders_id (b : BMCBuilder) (binders : List (Symbol × SmtSort))
    (h : (binders.flatMap (fun p => p.1.name :: symbolsOfSort p.2)).all
      (frameFreeName b) = true) :
    binders.map (fun p => (process_symbol b p.1, bmcSort b p.2)) = binders := by
  induction binders with
  | nil => rfl
  | cons p rest ih =>
      simp only [List.flatMap_cons, List.all_append, List.all_cons,
        Bool.and_eq_true] at h
      obtain ⟨⟨h1, h2⟩, h3⟩ := h
      simp [process_symbol_id b p.1 h1, bmcSort_id b p.2 h2, ih h3]

mutual
/-- A term that contains no current- or next-frame symbol is returned
syntactically unchanged by the Time-Step Renamer's rewrite pass. -/
theorem bmcTerm_id (b : BMCBuilder) :
    ∀ t : Term, (symbolsOfTerm t).all (frameFreeName b) = true →
      bmcTerm b t = t
  | .constant _, _ => rfl
  | .qualId qid, h => by
      simp only [symbolsOfTerm] at h
      simp [bmcTerm, bmcQualIdentifier_id b qid h]
  | .application qid args, h => by
      simp only [symbolsOfTerm, List.all_append, Bool.and_eq_true] at h
      simp [bmcTerm, bmcQualIdentifier_id b qid h.1,
        bmcTermList_id b args h.2]
  | .letT bindings body, h => by
      simp only [symbolsOfTerm, List.all_append, Bool.and_eq_true] at h
      simp [bmcTerm, bmcBindingList_id b bindings h.1, bmcTerm_id b body h.2]
  | .forallT binders body, h => by
      simp only [symbolsOfTerm, List.all_append, Bool.and_eq_true] at h
      simp [bmcTerm, bmcBinders_id b binders h.1, bmcTerm_id b body h.2]
  | .existsT binders body, h => by
      simp only [symbolsOfTerm, List.all_append, Bool.and_eq_true] at h
      simp [bmcTerm, bmcBinders_id b binders h.1, bmcTerm_id b body h.2]
  | .attributes t attrs, h => by
      simp only [symbolsOfTerm] at h
      simp [bmcTerm, bmcTerm_id b t h]
/-- An argument list free of renamer-known symbols is unchanged. -/
theorem bmcTermList_id (b : BMCBuilder) :
    ∀ ts : TermList, (symbolsOfTermList ts).all (frameFreeName b) = true →
      bmcTermList b ts = ts
  | .nil, _ => rfl
  | .cons t rest, h => by
      simp only [symbolsOfTermList, List.all_append, Bool.and_eq_true] at h
      simp [bmcTermList, bmcTerm_id b t h.1, bmcTermList_id b rest h.2]
/-- Let bindings free of renamer-known symbols are unchanged. -/
theorem bmcBindingList_id (b : BMCBuilder) :
    ∀ bs : BindingList, (symbolsOfBindingList bs).all (frameFreeName b) = true
      → bmcBindingList b bs = bs
  | .nil, _ => rfl
  | .cons x v rest, h => by
      simp only [symbolsOfBindingList, List.all_cons, List.all_append,
        Bool.and_eq_true] at h
      obtain ⟨h1, h2, h3⟩ := h
      simp [bmcBindingList, process_symbol_id b x h1, bmcTerm_id b v h2,
        bmcBindingList_id b rest h3]
end

/-- An application head free of array operations is unchanged by the
Array Theory Abstractor's identifier substitution. -/
theorem abstractQualIdentifier_id (qid : QualIdentifier)
    (h : qualIdHeadArrayFree qid = true) :
    abstractQualIdentifier qid = qid := by
  cases qid with
  | simple id =>
      simp only [qualIdHeadArrayFree, Bool.and_eq_true, Bool.not_eq_true'] at h
      simp [abstractQualIdentifier, h.1, h.2]
  | sorted id sort =>
      simp only [qualIdHeadArrayFree, Bool.and_eq_true, Bool.not_eq_true'] at h
      simp [abstractQualIdentifier, h.1]

mutual
/-- A term free of array constructs is returned syntactically unchanged
by the Array Theory Abstractor's rewrite pass. -/
theorem abstractTerm_id :
    ∀ t : Term, termArrayFree t = true → abstractTerm t = t
  | .constant _, _ => rfl
  | .qualId _, _ => rfl
  | .application qid args, h => by
      simp only [termArrayFree, Bool.and_eq_true] at h
      simp [abstractTerm, abstractQualIdentifier_id qid h.1,
        abstractTermList_id args h.2]
  | .letT bindings body, h => by
      simp only [termArrayFree, Bool.and_eq_true] at h
      simp [abstractTerm, abstractBindingList_id bindings h.1,
        abstractTerm_id body h.2]
  | .forallT binders body, h => by
      simp only [termArrayFree, Bool.and_eq_true] at h
      simp [abstractTerm, abstractTerm_id body h.2]
  | .existsT binders body, h => by
      simp only [termArrayFree, Bool.and_eq_true] at h
      simp [abstractTerm, abstractTerm_id body h.2]
  | .attributes t attrs, h => by
      simp only [termArrayFree] at h
      simp [abstractTerm, abstractTerm_id t h]
/-- An argument list free of array constructs is unchanged. -/
theorem abstractTermList_id :
    ∀ ts : TermList, termListArrayFree ts = true → abstractTermList ts = ts
  | .nil, _ => rfl
  | .cons t rest, h => by
      simp only [termListArrayFree, Bool.and_eq_true] at h
      simp [abstractTermList, abstractTerm_id t h.1,
        abstractTermList_id rest h.2]
/-- Let bindings free of array constructs are unchanged. -/
theorem abstractBindingList_id :
    ∀ bs : BindingList, bindingsArrayFree bs = true →
      abstractBindingList bs = bs
  | .nil, _ => rfl
  | .cons x v rest, h => by
      simp only [bindingsArrayFree, Bool.and_eq_true] at h
      simp [abstractBindingList, abstractTerm_id v h.1,
        abstractBindingList_id rest h.2]
end

/-- Characterization of the unrolling loop: starting at step `s` and
running `n` iterations (all of them below the `u8` wrap), it appends one
block of time-indexed definitions and one rewritten transition assertion
per step `s`, `s+1`, …, `s+n-1`, and leaves the builder at step `s+n`. -/
theorem unrollLoop_spec (m : VMTModel) :
    ∀ (n : Nat) (p : SMTProblem) (cur : List String)
      (nxt : List (String × String)) (s : Nat), s + n ≤ 255 →
      unrollLoop m n p ⟨cur, nxt, s⟩ =
        ({ sorts := p.sorts,
           definitions := p.definitions ++
             (List.range n).flatMap
               (fun i => stepDefs m ⟨cur, nxt, s + i⟩),
           init_and_trans_assertions := p.init_and_trans_assertions ++
             (List.range n).map
               (fun i => bmcTerm ⟨cur, nxt, s + i⟩ m.transition_condition),
           property_assertion := p.property_assertion },
         ⟨cur, nxt, s + n⟩)
  | 0, p, cur, nxt, s, _ => by
      simp [unrollLoop]
  | n + 1, p, cur, nxt, s, h => by
      have hs : (s + 1) % 256 = s + 1 := Nat.mod_eq_of_lt (by omega)
      have ih := unrollLoop_spec m n
        (SMTProblem.add_assertion
          (SMTProblem.add_definitions p m.state_variables m.actions
            ⟨cur, nxt, s⟩)
          m.transition_condition ⟨cur, nxt, s⟩)
        cur nxt (s + 1) (by omega)
      have hidx : ∀ i : Nat, s + 1 + i = s + (i + 1) := fun i => by omega
      simp only [unrollLoop, BMCBuilder.add_step, hs]
      rw [ih]
      simp only [SMTProblem.add_assertion, SMTProblem.add_definitions,
        stepDefs, List.range_succ_eq_map, List.flatMap_cons, List.map_cons,
        List.map_map, List.flatMap_map, List.append_assoc, Nat.add_zero,
        List.cons_append, List.nil_append, Function.comp_def,
        Nat.succ_eq_add_one, hidx, Prod.mk.injEq, SMTProblem.mk.injEq,
        BMCBuilder.mk.injEq]

/-- Characterization of `unroll` below the `u8` wrap: for `k ≤ 254` the
produced SMT problem carries the model's sorts, the per-step definition
blocks for steps `0..k`, the initial condition rewritten at step 0
followed by the transition condition rewritten at steps `0..k-1`, and the
property rewritten at step `k`. -/
theorem unroll_spec (m : VMTModel) (cur : List String)
    (nxt : List (String × String)) (k : Nat) (hk : k ≤ 254)
    (hc : get_all_current_variable_names m = some cur)
    (hn : get_all_next_variable_names m = some nxt) :
    unroll m k = some
      { sorts := m.sorts,
        definitions := (List.range (k + 1)).flatMap
          (fun i => stepDefs m ⟨cur, nxt, i⟩),
        init_and_trans_assertions :=
          bmcTerm ⟨cur, nxt, 0⟩ m.initial_condition ::
            (List.range k).map
              (fun i => bmcTerm ⟨cur, nxt, i⟩ m.transition_condition),
        property_assertion :=
          some (bmcTerm ⟨cur, nxt, k⟩ m.property_condition) } := by
  have hloop := unrollLoop_spec m k
    (SMTProblem.add_assertion (SMTProblem.new m.sorts) m.initial_condition
      ⟨cur, nxt, 0⟩) cur nxt 0 (by omega)
  have hmod : (k + 1) % 256 = k + 1 := Nat.mod_eq_of_lt (by omega)
  simp only [unroll, hc, hn]
  rw [hloop]
  simp only [SMTProblem.add_assertion, SMTProblem.add_definitions,
    SMTProblem.add_property_assertion, SMTProblem.new,
    SMTProblem.init_and_trans_length, Nat.zero_add, List.nil_append,
    List.cons_append, List.length_cons, List.length_map,
    List.length_range, hmod, List.range_succ, List.flatMap_append,
    List.flatMap_cons, List.flatMap_nil, List.append_nil, stepDefs,
    List.append_assoc, if_pos]

/-- A depth whose `u8`-computed `length + 1` differs from the true
successor makes the trailing internal-consistency check of `unroll` fail:
the loop builds `n + 1` initial/transition assertions while the check
expects `(n + 1) % 256` of them. -/
theorem unroll_count_mismatch (m : VMTModel) (n : Nat) (hn : n ≤ 255)
    (hcond : ¬ (n + 1 = (n + 1) % 256)) : unroll m n = none := by
  cases hc : get_all_current_variable_names m with
  | none => simp only [unroll, hc]
  | some cur =>
      cases hnx : get_all_next_variable_names m with
      | none => simp only [unroll, hc, hnx]
      | some nxt =>
          have hloop := unrollLoop_spec m n
            (SMTProblem.add_assertion (SMTProblem.new m.sorts)
              m.initial_condition ⟨cur, nxt, 0⟩) cur nxt 0 (by omega)
          simp only [unroll, hc, hnx]
          rw [hloop]
          simp only [SMTProblem.add_assertion, SMTProblem.add_definitions,
            SMTProblem.add_property_assertion, SMTProblem.new,
            SMTProblem.init_and_trans_length, List.nil_append,
            List.cons_append, List.length_append, List.length_cons,
            List.length_map, List.length_range]
          rw [if_neg (by omega)]

/-- At depth 255 the trailing internal-consistency check of `unroll`
always fails: the loop builds `256` initial/transition assertions, while
`(length + 1)` computed in `u8` wraps to `0`. -/
theorem unroll_255_none (m : VMTModel) : unroll m 255 = none :=
  unroll_count_mismatch m 255 (by omega) (by omega)

/-- `get_transition_system_component` succeeds exactly on a `define-fun`
wrapped by a single keyword attribute with the expected name. -/
theorem gtsc_isSome (c : Command) (a : String) :
    (get_transition_system_component c a).isSome = hasSingleAttrWrapper c a
    := by
  cases c with
  | defineFun sig body =>
      cases body with
      | attributes t attrs =>
          match attrs with
          | [] => rfl
          | [(k, v)] =>
              simp only [get_transition_system_component,
                command_has_attribute_string, hasSingleAttrWrapper]
              cases k.name == a <;> simp
          | _ :: _ :: _ => rfl
      | constant _ => rfl
      | qualId _ => rfl
      | application _ _ => rfl
      | letT _ _ => rfl
      | forallT _ _ => rfl
      | existsT _ _ => rfl
  | declareFun _ _ _ => rfl
  | declareSort _ _ => rfl
  | other => rfl

/-- Inverting a successful extraction: the declaration sequence has more
than three commands and each of the three trailing component unwrappings
succeeded. -/
theorem checked_from_isSome_parts {commands : List Command}
    (h : (checked_from commands).isSome = true) :
    3 < commands.length ∧
    (get_transition_system_component
      (commands.getD (commands.length - 1) .other)
      PROPERTY_ATTRIBUTE).isSome = true ∧
    (get_transition_system_component
      (commands.getD (commands.length - 2) .other)
      TRANSITION_ATTRIBUTE).isSome = true ∧
    (get_transition_system_component
      (commands.getD (commands.length - 3) .other)
      INITIAL_ATTRIBUTE).isSome = true := by
  simp only [checked_from] at h
  split at h
  · simp at h
  next hlen =>
    refine ⟨by omega, ?_⟩
    split at h
    · simp at h
    next p hp =>
      refine ⟨by rw [hp]; rfl, ?_⟩
      split at h
      · simp at h
      next t ht =>
        refine ⟨by rw [ht]; rfl, ?_⟩
        split at h
        · simp at h
        next i hi => rw [hi]; rfl

/-- The partition loop leaves the relationship queue untouched when every
command is a variable or sort declaration. -/
theorem partition_no_rels :
    ∀ (l : List Command) (vc : List (String × Command))
      (sorts rels : List Command),
      (∀ c ∈ l, c.isDeclareFun || c.isDeclareSort) →
      ∃ vc2 sorts2, partitionCommands l (vc, sorts, rels) =
        some (vc2, sorts2, rels)
  | [], vc, sorts, rels, _ => ⟨vc, sorts, rfl⟩
  | c :: rest, vc, sorts, rels, h => by
      have hc := h c (by simp)
      have hrest : ∀ x ∈ rest, x.isDeclareFun || x.isDeclareSort :=
        fun x hx => h x (by simp [hx])
      cases c with
      | declareFun sym params sort =>
          obtain ⟨vc2, sorts2, heq⟩ :=
            partition_no_rels rest ((sym.name, .declareFun sym params sort)
              :: vc) sorts rels hrest
          exact ⟨vc2, sorts2, by simp [partitionCommands, heq]⟩
      | declareSort sym arity =>
          obtain ⟨vc2, sorts2, heq⟩ :=
            partition_no_rels rest vc (sorts ++ [.declareSort sym arity])
              rels hrest
          exact ⟨vc2, sorts2, by simp [partitionCommands, heq]⟩
      | defineFun sig term => simp [Command.isDeclareFun,
          Command.isDeclareSort] at hc
      | other => simp [Command.isDeclareFun, Command.isDeclareSort] at hc

/-! ### Claim theorems -/

/-- C1 (counterexample): the claim quantifies over every depth `k ≥ 0`,
but the depth parameter is a `u8`, and at `k = 255` the unroller's
trailing count check compares 256 accumulated assertions with
`(255 + 1)` computed in `u8`, which wraps to 0, so no SMT problem is
produced at all. -/
theorem C1_counterexample_depth255 : unroll exModel 255 = none :=
  unroll_255_none exModel

/-- C1 (amended): for every model and every depth `0 ≤ k ≤ 254`, `unroll`
produces an SMT problem containing exactly `k + 1` initial/transition
assertions — the initial condition rewritten at step 0 followed by the
transition condition rewritten at each step `0..k-1` — and exactly one
property assertion, the property rewritten at step `k`. -/
theorem C1_unroll_assertion_counts (m : VMTModel) (cur : List String)
    (nxt : List (String × String)) (k : Nat) (hk : k ≤ 254)
    (hc : get_all_current_variable_names m = some cur)
    (hn : get_all_next_variable_names m = some nxt) :
    ∃ p, unroll m k = some p ∧
      p.init_and_trans_assertions.length = k + 1 ∧
      p.init_and_trans_assertions =
        bmcTerm ⟨cur, nxt, 0⟩ m.initial_condition ::
          (List.range k).map
            (fun i => bmcTerm ⟨cur, nxt, i⟩ m.transition_condition) ∧
      p.property_assertion =
        some (bmcTerm ⟨cur, nxt, k⟩ m.property_condition) :=
  ⟨_, unroll_spec m cur nxt k hk hc hn, by simp, rfl, rfl⟩

/-- C1 (witness): the toggle model unrolled to depth 1. -/
theorem C1_unroll_assertion_counts_witness :
    ∃ p, unroll exModel 1 = some p ∧
      p.init_and_trans_assertions.length = 1 + 1 ∧
      p.init_and_trans_assertions =
        bmcTerm ⟨["x"], [("x_next", "x")], 0⟩ exModel.initial_condition ::
          (List.range 1).map
            (fun i => bmcTerm ⟨["x"], [("x_next", "x")], i⟩
              exModel.transition_condition) ∧
      p.property_assertion =
        some (bmcTerm ⟨["x"], [("x_next", "x")], 1⟩
          exModel.property_condition) :=
  C1_unroll_assertion_counts exModel ["x"] [("x_next", "x")] 1 (by omega)
    rfl rfl

/-- C2 (counterexample): with the `u8` step counter at 255, the
next-frame name `b` (mapped to current name `a`) is not rewritten to
`a@(s+1)` = `a@256`; the successor wraps and the code produces `a@0`. -/
theorem C2_counterexample_step255 :
    process_symbol cb255 ⟨"b"⟩ ≠ ⟨"a@" ++ toString (cb255.step + 1)⟩ := by
  decide

/-- C2 (amended): during a rewrite pass with step counter `s`, a
current-frame name rewrites to `name@s`; otherwise a next-frame name
rewrites to `mapped@(s+1)` provided `s ≤ 254` (at `s = 255` the `u8`
successor wraps to 0); any other symbol is left unchanged. -/
theorem C2_process_symbol_rules (b : BMCBuilder) (s : Symbol) :
    (b.current_variables.contains s.name = true →
      process_symbol b s = ⟨s.name ++ "@" ++ toString b.step⟩) ∧
    (b.step ≤ 254 → b.current_variables.contains s.name = false →
      ∀ cur, b.next_variables.lookup s.name = some cur →
        process_symbol b s = ⟨cur ++ "@" ++ toString (b.step + 1)⟩) ∧
    (b.current_variables.contains s.name = false →
      b.next_variables.lookup s.name = none →
      process_symbol b s = s) := by
  refine ⟨fun h => ?_, fun hs h hcur hlook => ?_, fun h hlook => ?_⟩
  · have h1 : s.name ∈ b.current_variables := by simpa using h
    simp [process_symbol, h1]
  · have hmod : (b.step + 1) % 256 = b.step + 1 := Nat.mod_eq_of_lt (by omega)
    have h1 : s.name ∉ b.current_variables := by simpa using h
    simp [process_symbol, h1, hlook, hmod]
  · have h1 : s.name ∉ b.current_variables := by simpa using h
    simp [process_symbol, h1, hlook]

/-- C2 (witness): a current-frame, a next-frame and an untouched symbol
at step 7. -/
theorem C2_process_symbol_rules_witness :
    process_symbol ⟨["x"], [("x_next", "x")], 7⟩ ⟨"x"⟩ = ⟨"x@7"⟩ ∧
    process_symbol ⟨["x"], [("x_next", "x")], 7⟩ ⟨"x_next"⟩ = ⟨"x@8"⟩ ∧
    process_symbol ⟨["x"], [("x_next", "x")], 7⟩ ⟨"y"⟩ = ⟨"y"⟩ :=
  ⟨(C2_process_symbol_rules ⟨["x"], [("x_next", "x")], 7⟩ ⟨"x"⟩).1
      (by decide),
    (C2_process_symbol_rules ⟨["x"], [("x_next", "x")], 7⟩ ⟨"x_next"⟩).2.1
      (by decide) (by decide) "x" (by decide),
    (C2_process_symbol_rules ⟨["x"], [("x_next", "x")], 7⟩ ⟨"y"⟩).2.2
      (by decide) (by decide)⟩

/-- C3 (code bug, evaluated at the failing input): `abstract_array_theory`
is `self.clone()`, so on a model that uses the parameterized
`(Array Int Int)` sort and `select`/`store` applications it returns the
model unchanged: the parameterized array sort and the `store` application
survive, although the repository's own `ArrayAbstractor` rewriter would
have rewritten the transition condition. -/
theorem C3_abstract_array_theory_unchanged :
    abstract_array_theory exArrModel = exArrModel ∧
    (abstract_array_theory exArrModel).state_variables =
      [⟨Command.declareFun ⟨"arr"⟩ [] arrIntIntSort,
        Command.declareFun ⟨"arr_next"⟩ [] arrIntIntSort⟩] ∧
    sortArrayFree arrIntIntSort = false ∧
    termArrayFree (abstract_array_theory exArrModel).transition_condition =
      false ∧
    Term.toStr (abstractTerm exArrModel.transition_condition) ≠
      Term.toStr exArrModel.transition_condition :=
  ⟨rfl, rfl, rfl, rfl, by decide⟩

/-- C4: model extraction succeeds only when the last declaration is a
definition wrapped by the single keyword attribute `invar-property`, the
second-to-last by `trans` and the third-to-last by `init`; contrapositively
a keyword mismatch at any of the three positions yields no model. -/
theorem C4_trailing_attribute_contract (commands : List Command)
    (h : (checked_from commands).isSome = true) :
    hasSingleAttrWrapper (commands.getD (commands.length - 1) .other)
      PROPERTY_ATTRIBUTE = true ∧
    hasSingleAttrWrapper (commands.getD (commands.length - 2) .other)
      TRANSITION_ATTRIBUTE = true ∧
    hasSingleAttrWrapper (commands.getD (commands.length - 3) .other)
      INITIAL_ATTRIBUTE = true := by
  obtain ⟨-, h1, h2, h3⟩ := checked_from_isSome_parts h
  rw [gtsc_isSome] at h1 h2 h3
  exact ⟨h1, h2, h3⟩

/-- C4 (witness): the toggle model's declaration sequence. -/
theorem C4_trailing_attribute_contract_witness :
    hasSingleAttrWrapper (exCmds.getD (exCmds.length - 1) .other)
      PROPERTY_ATTRIBUTE = true ∧
    hasSingleAttrWrapper (exCmds.getD (exCmds.length - 2) .other)
      TRANSITION_ATTRIBUTE = true ∧
    hasSingleAttrWrapper (exCmds.getD (exCmds.length - 3) .other)
      INITIAL_ATTRIBUTE = true :=
  C4_trailing_attribute_contract exCmds (by rfl)

/-- C5: the textual output of `to_smtlib2` on a problem produced by
`unroll` consists, in order, of the sort declarations, the time-indexed
definitions in accumulation order (steps `0..k`), one `(assert ...)` form
per initial/transition assertion, and exactly one final
`(assert (not ...))` form wrapping the property rewritten at the final
step; the property enters the output only through `assert_negation`. -/
theorem C5_to_smtlib2_layout (m : VMTModel) (cur : List String)
    (nxt : List (String × String)) (k : Nat) (hk : k ≤ 254)
    (hc : get_all_current_variable_names m = some cur)
    (hn : get_all_next_variable_names m = some nxt) :
    ∃ p, unroll m k = some p ∧
      p.to_smtlib2 = some
        (String.intercalate "\n" (m.sorts.map Command.toStr) ++ "\n" ++
         String.intercalate "\n"
           (((List.range (k + 1)).flatMap
             (fun i => stepDefs m ⟨cur, nxt, i⟩)).map Command.toStr) ++
         "\n" ++
         String.intercalate "\n"
           ((bmcTerm ⟨cur, nxt, 0⟩ m.initial_condition ::
             (List.range k).map
               (fun i => bmcTerm ⟨cur, nxt, i⟩ m.transition_condition)).map
             assert_term) ++ "\n" ++
         assert_negation (bmcTerm ⟨cur, nxt, k⟩ m.property_condition)) := by
  refine ⟨_, unroll_spec m cur nxt k hk hc hn, ?_⟩
  simp [SMTProblem.to_smtlib2]

/-- C5 (witness): the toggle model at depth 1. -/
theorem C5_to_smtlib2_layout_witness :
    ∃ p, unroll exModel 1 = some p ∧
      p.to_smtlib2 = some
        (String.intercalate "\n" (exModel.sorts.map Command.toStr) ++ "\n" ++
         String.intercalate "\n"
           (((List.range (1 + 1)).flatMap
             (fun i => stepDefs exModel ⟨["x"], [("x_next", "x")], i⟩)).map
             Command.toStr) ++ "\n" ++
         String.intercalate "\n"
           ((bmcTerm ⟨["x"], [("x_next", "x")], 0⟩ exModel.initial_condition
             :: (List.range 1).map
               (fun i => bmcTerm ⟨["x"], [("x_next", "x")], i⟩
                 exModel.transition_condition)).map assert_term) ++ "\n" ++
         assert_negation (bmcTerm ⟨["x"], [("x_next", "x")], 1⟩
           exModel.property_condition)) :=
  C5_to_smtlib2_layout exModel ["x"] [("x_next", "x")] 1 (by omega) rfl rfl

/-- C6: for a fixed step, the Time-Step Renamer is injective on
current-frame names: two distinct current-frame names rewrite to two
distinct time-indexed symbols. -/
theorem C6_renaming_injective_per_step (b : BMCBuilder) (s1 s2 : Symbol)
    (h1 : b.current_variables.contains s1.name = true)
    (h2 : b.current_variables.contains s2.name = true)
    (hne : s1.name ≠ s2.name) :
    process_symbol b s1 ≠ process_symbol b s2 := by
  simp only [process_symbol, h1, h2, if_true, if_pos]
  intro heq
  apply hne
  have hnames : s1.name ++ "@" ++ toString b.step =
      s2.name ++ "@" ++ toString b.step := congrArg Symbol.name heq
  exact string_append_cancel_right (string_append_cancel_right hnames)

/-- C6 (witness): `x` and `y` at step 3. -/
theorem C6_renaming_injective_per_step_witness :
    process_symbol ⟨["x", "y"], [], 3⟩ ⟨"x"⟩ ≠
      process_symbol ⟨["x", "y"], [], 3⟩ ⟨"y"⟩ :=
  C6_renaming_injective_per_step ⟨["x", "y"], [], 3⟩ ⟨"x"⟩ ⟨"y"⟩
    (by decide) (by decide) (by decide)

/-- C7: a term containing no current- or next-frame symbol is returned
syntactically unchanged by the Time-Step Renamer's rewrite pass, and a
term containing no array construct (no `select`/`store` application, no
sorted `const` identifier, no parameterized `Array` sort) is returned
syntactically unchanged by the Array Theory Abstractor's rewrite pass. -/
theorem C7_pass_through_unchanged :
    (∀ (b : BMCBuilder) (t : Term),
      (symbolsOfTerm t).all (frameFreeName b) = true → bmcTerm b t = t) ∧
    (∀ t : Term, termArrayFree t = true → abstractTerm t = t) :=
  ⟨bmcTerm_id, abstractTerm_id⟩

/-- C7 (witness): the term `(+ i 1)` under the toggle model's renamer and
under the abstractor. -/
theorem C7_pass_through_unchanged_witness :
    bmcTerm ⟨["x"], [("x_next", "x")], 2⟩ exUntouchedTerm =
      exUntouchedTerm ∧
    abstractTerm exUntouchedTerm = exUntouchedTerm :=
  ⟨C7_pass_through_unchanged.1 ⟨["x"], [("x_next", "x")], 2⟩
      exUntouchedTerm (by decide),
    C7_pass_through_unchanged.2 exUntouchedTerm (by decide)⟩

/-- C8 (counterexample): a sequence declaring the variable `x` with no
`:next`/`:action` relationship naming it does not fail extraction at all:
`checked_from` succeeds and the resulting model simply contains no state
variable and no action — `x` is silently dropped. -/
theorem C8_counterexample_silent_drop :
    checked_from ex8Cmds = some ex8Model ∧
    ex8Model.state_variables = [] ∧ ex8Model.actions = [] :=
  ⟨rfl, rfl, rfl⟩

/-- C8 (amended): when the declarations before the trailing three contain
no relationship at all (only variable/sort declarations), extraction
succeeds with an empty state-variable and action list: a declared variable
with no `:next`/`:action` relationship naming it is silently dropped from
the model, not reported as an "unknown variable" error. -/
theorem C8_unreferenced_variable_dropped (ds : List Command)
    (i t p : Command) (hds : ds ≠ [])
    (hkinds : ∀ c ∈ ds, c.isDeclareFun || c.isDeclareSort)
    (hi : hasSingleAttrWrapper i INITIAL_ATTRIBUTE = true)
    (ht : hasSingleAttrWrapper t TRANSITION_ATTRIBUTE = true)
    (hp : hasSingleAttrWrapper p PROPERTY_ATTRIBUTE = true) :
    ∃ mdl, checked_from (ds ++ [i, t, p]) = some mdl ∧
      mdl.state_variables = [] ∧ mdl.actions = [] := by
  have hlen : (ds ++ [i, t, p]).length = ds.length + 3 := by simp
  obtain ⟨tp, htp⟩ := Option.isSome_iff_exists.mp
    (by rw [gtsc_isSome]; exact hp)
  obtain ⟨tt, htt⟩ := Option.isSome_iff_exists.mp
    (by rw [gtsc_isSome]; exact ht)
  obtain ⟨ti, hti⟩ := Option.isSome_iff_exists.mp
    (by rw [gtsc_isSome]; exact hi)
  have g1 : (ds ++ [i, t, p]).getD ((ds ++ [i, t, p]).length - 1) .other
      = p := by
    rw [hlen, show ds.length + 3 - 1 = ds.length + 2 from by omega,
      List.getD_append_right ds [i, t, p] Command.other (ds.length + 2)
        (by omega)]
    simp
  have g2 : (ds ++ [i, t, p]).getD ((ds ++ [i, t, p]).length - 2) .other
      = t := by
    rw [hlen, show ds.length + 3 - 2 = ds.length + 1 from by omega,
      List.getD_append_right ds [i, t, p] Command.other (ds.length + 1)
        (by omega)]
    simp
  have g3 : (ds ++ [i, t, p]).getD ((ds ++ [i, t, p]).length - 3) .other
      = i := by
    rw [hlen, show ds.length + 3 - 3 = ds.length from by omega,
      List.getD_append_right ds [i, t, p] Command.other ds.length
        (by omega)]
    simp
  have gtake : (ds ++ [i, t, p]).take ((ds ++ [i, t, p]).length - 3) = ds
      := by
    rw [hlen, show ds.length + 3 - 3 = ds.length from by omega]
    exact List.take_left ds _
  obtain ⟨vc2, sorts2, hpart⟩ := partition_no_rels ds [] [] [] hkinds
  have hdl : 0 < ds.length := List.length_pos.mpr hds
  have hnle : ¬ ((ds ++ [i, t, p]).length ≤ 3) := by rw [hlen]; omega
  refine ⟨⟨sorts2, [], [], ti, tt, tp⟩, ?_, rfl, rfl⟩
  simp only [checked_from, hnle, if_false, g1, g2, g3, gtake, htp, htt,
    hti, hpart, get_variables_and_actions]

/-- C8 (amended, witness): `x` and `x_next` declared with no relationship
at all. -/
theorem C8_unreferenced_variable_dropped_witness :
    ∃ mdl, checked_from ([exXDecl, exXNextDecl] ++
      [exInitCmd, exTransCmd, exPropCmd]) = some mdl ∧
      mdl.state_variables = [] ∧ mdl.actions = [] :=
  C8_unreferenced_variable_dropped [exXDecl, exXNextDecl] exInitCmd
    exTransCmd exPropCmd (by simp) (by decide) (by decide) (by decide)
    (by decide)

/-- C9: fewer than four declarations make model extraction fail — the
source's `assert!(number_of_commands > 3)` panic is a failure, not a
model (embedded as `none`). -/
theorem C9_insufficient_declarations (commands : List Command)
    (h : commands.length < 4) : checked_from commands = none := by
  unfold checked_from
  rw [if_pos (by omega)]

/-- C9 (witness): the empty declaration sequence. -/
theorem C9_insufficient_declarations_witness : checked_from [] = none :=
  C9_insufficient_declarations [] (by decide)

/-- C10: the depth and step counters are 8-bit; at depth `k = 255` the
`u8` computation `length + 1` wraps to 0 so the unroller's count check
can never accept the 256 accumulated assertions, and `unroll` fails for
every model; every depth `0..254` succeeds (for models whose variable
and action commands are well-formed declarations). -/
theorem C10_effective_depths :
    (∀ m : VMTModel, unroll m 255 = none) ∧
    (∀ (m : VMTModel) (cur : List String) (nxt : List (String × String))
      (k : Nat), get_all_current_variable_names m = some cur →
      get_all_next_variable_names m = some nxt → k < 255 →
      (unroll m k).isSome = true) := by
  refine ⟨unroll_255_none, fun m cur nxt k hc hn hk => ?_⟩
  rw [unroll_spec m cur nxt k (by omega) hc hn]
  rfl

/-- C10 (witness): the toggle model fails at depth 255 and succeeds at
depth 3. -/
theorem C10_effective_depths_witness :
    unroll exModel 255 = none ∧ (unroll exModel 3).isSome = true :=
  ⟨C10_effective_depths.1 exModel,
    C10_effective_depths.2 exModel ["x"] [("x_next", "x")] 3 rfl rfl
      (by decide)⟩

end Vmt
